import Mathlib

/-!
Verification of the ElasticNode bitstream flasher
(`bit_stream_flasher.py`): the XMODEM-inspired packet framing, the
acknowledgement protocol and the chunked file transmission, shallowly
embedded as pure Lean functions.  Bytes are natural numbers below 256,
byte strings are `List Nat`, and the blocking serial transport is
modelled by explicit state passing: a `SerialPort` carries the stream of
bytes the peer will send (`input`) and the bytes written so far
(`output`); a blocking read that never sees the byte it waits for is
modelled by `Option` (`none` = the call never returns).
-/

namespace Flasher

/-- Control characters of the protocol (`ControlChars` enum), as byte values. -/
def ACK : Nat := 0x06
/-- NAK control byte. -/
def NAK : Nat := 0x15
/-- Start-of-header marker byte. -/
def SOH : Nat := 0x01
/-- End-of-transmission control byte. -/
def EOT : Nat := 0x04
/-- Cancel control byte (defined but never used by the code). -/
def CAN : Nat := 0x18
/-- Latin capital letter C, the checksum-mode handshake byte. -/
def Cchar : Nat := 0x43
/-- ASCII `'1'`, written to start a transmission. -/
def START_TRANSMISSION : Nat := 0x31

/-- A `Packet` as the Python class stores it: the block number already
converted to its two bytes (`self._block_number = int_to_bytes(block_number, 2)`)
together with the raw payload bytes. -/
structure Packet where
  _block_number : List Nat
  _payload : List Nat
  deriving Repr, DecidableEq

namespace Packet

/-- The constant `Packet.MAX_SIZE = 256`. -/
def MAX_SIZE : Nat := 256

/-- The static method `Packet.int_to_bytes(value, length)`:
`bytes([(value >> i*8) & 0xff for i in reversed(range(length))])`. -/
def int_to_bytes (value length : Nat) : List Nat :=
  (List.range length).reverse.map (fun i => (value >>> (i * 8)) &&& 0xff)

/-- The constructor `Packet.__init__(block_number, payload)`. -/
def make (block_number : Nat) (payload : List Nat) : Packet :=
  { _block_number := int_to_bytes block_number 2, _payload := payload }

/-- The `block_number` property getter: `raise PermissionError('Block number is write-only')`.
The raised error is embedded as an `Except.error` result; the getter never
produces a value. -/
def block_number (_ : Packet) : Except String Nat :=
  Except.error "Block number is write-only"

/-- The `block_number` property setter:
`self._block_number = self.int_to_bytes(value, 2)`. -/
def set_block_number (p : Packet) (value : Nat) : Packet :=
  { p with _block_number := int_to_bytes value 2 }

/-- The `_payload_length` property: `int_to_bytes(len(self._payload), 2)`. -/
def _payload_length (p : Packet) : List Nat :=
  int_to_bytes p._payload.length 2

/-- The `_check_sum` property: `int_to_bytes(sum(self._payload) & 0xff, 1)`. -/
def _check_sum (p : Packet) : List Nat :=
  int_to_bytes (p._payload.sum &&& 0xff) 1

/-- The method `Packet.as_bytearray()`: SOH, block number, payload length, payload,
checksum, joined in this order. -/
def as_bytearray (p : Packet) : List Nat :=
  [SOH] ++ p._block_number ++ p._payload_length ++ p._payload ++ p._check_sum

end Packet

/-- The byte-stream transport: bytes the peer will deliver, in order
(`input`), and everything written to the port so far (`output`). -/
structure SerialPort where
  input : List Nat
  output : List Nat
  deriving Repr, DecidableEq

/-- The transport call `self._sp.write(data)`: appends the bytes to the port's output. -/
def SerialPort.write (sp : SerialPort) (data : List Nat) : SerialPort :=
  { sp with output := sp.output ++ data }

/-- The loop of `_wait_for_chars`: read single bytes until one contained in
`chars` arrives; yields that byte and the unread rest of the stream, or
`none` when the stream never delivers such a byte (the Python loop blocks
forever). -/
def waitForChars (chars : List Nat) : List Nat → Option (Nat × List Nat)
  | [] => none
  | b :: rest => if b ∈ chars then some (b, rest) else waitForChars chars rest

/-- The transport call `self._sp.read_until(ACK)` and similar: consume bytes up to and
including the first occurrence of `term`; `none` when it never arrives. -/
def readUntilByte (term : Nat) : List Nat → Option (List Nat)
  | [] => none
  | b :: rest => if b = term then some rest else readUntilByte term rest

/-- The class `BitStreamTransferProtocol`: the owned serial port plus the
`self._crc_mode` flag (`None` until `start_transmission` records the
handshake byte). -/
structure BitStreamTransferProtocol where
  sp : SerialPort
  _crc_mode : Option Nat
  deriving Repr, DecidableEq

namespace BitStreamTransferProtocol

/-- The method `self._write(data)` (the `_make_bytes` coercion is identity in this
embedding, where all data is already a byte list). -/
def _write (p : BitStreamTransferProtocol) (data : List Nat) : BitStreamTransferProtocol :=
  { p with sp := p.sp.write data }

/-- The method `self._wait_for_chars(chars)` acting on the protocol state. -/
def _wait_for_chars (p : BitStreamTransferProtocol) (chars : List Nat) :
    Option (Nat × BitStreamTransferProtocol) :=
  match waitForChars chars p.sp.input with
  | none => none
  | some (ch, rest) => some (ch, { p with sp := { p.sp with input := rest } })

/-- The method `self._check_crc_mode()`: wait for `C` or NAK. -/
def _check_crc_mode (p : BitStreamTransferProtocol) :
    Option (Nat × BitStreamTransferProtocol) :=
  p._wait_for_chars [Cchar, NAK]

/-- The method `start_transmission()`: write `'1'`, wait for the mode byte, record it. -/
def start_transmission (p : BitStreamTransferProtocol) :
    Option BitStreamTransferProtocol :=
  let p := p._write [START_TRANSMISSION]
  match p._check_crc_mode with
  | none => none
  | some (ch, p) => some { p with _crc_mode := some ch }

/-- The method `self._wait_for_ack()`: wait for ACK or NAK, return whether ACK arrived. -/
def _wait_for_ack (p : BitStreamTransferProtocol) :
    Option (Bool × BitStreamTransferProtocol) :=
  match p._wait_for_chars [ACK, NAK] with
  | none => none
  | some (ch, p) => some (decide (ch = ACK), p)

/-- The method `send_packet(packet)`: write the serialized packet, then wait for ACK/NAK. -/
def send_packet (p : BitStreamTransferProtocol) (pkt : Packet) :
    Option (Bool × BitStreamTransferProtocol) :=
  let p := { p with sp := p.sp.write pkt.as_bytearray }
  p._wait_for_ack

/-- The method `stop_transmission()`: write EOT, then `read_until(ACK)`. -/
def stop_transmission (p : BitStreamTransferProtocol) :
    Option BitStreamTransferProtocol :=
  let p := p._write [EOT]
  match readUntilByte ACK p.sp.input with
  | none => none
  | some rest => some { p with sp := { p.sp with input := rest } }

end BitStreamTransferProtocol

/-- The class `BitStreamTransmitter` instance state: the loaded file bytes and the
target address (`self._data`, `self._addr_int`). -/
structure BitStreamTransmitter where
  _data : List Nat
  _addr_int : Nat
  deriving Repr, DecidableEq

/-- Python slicing `l[a:b]` for `0 ≤ a ≤ b`. -/
def pySlice (l : List Nat) (a b : Nat) : List Nat :=
  (l.drop a).take (b - a)

/-- Helper for a kernel-computable base-2 logarithm: the first argument is
fuel that merely bounds the recursion depth (the value halves each step). -/
def log2fuel : Nat → Nat → Nat
  | 0, _ => 0
  | fuel + 1, n => if n ≤ 1 then 0 else log2fuel fuel (n / 2) + 1

/-- Floor of the base-2 logarithm of a positive number, by structural
recursion on fuel `n` (always sufficient, since the value halves each
step). -/
def natLog2 (n : Nat) : Nat := log2fuel n n

/-- Rounding of a natural number to the nearest IEEE-754 binary64 value
(53 significant bits, ties to even), returned as a natural number — the
rounding CPython applies to a large integer entering float arithmetic.
Numbers up to 2^53 are exact; above, the low `log2 n - 52` bits are
rounded away, half to even.  (Valid below the binary64 overflow threshold
2^1024, far above every length considered here.) -/
def roundB64 (n : Nat) : Nat :=
  if n ≤ 2 ^ 53 then n
  else
    let k := natLog2 n - 52
    let q := n / 2 ^ k
    let r := n % 2 ^ k
    if 2 ^ (k - 1) < r ∨ (r = 2 ^ (k - 1) ∧ q % 2 = 1) then (q + 1) * 2 ^ k
    else q * 2 ^ k

/-- Python's `math.floor(file_length / Packet.MAX_SIZE)` where `/` is
CPython's int-by-int true division: that division yields the correctly
rounded binary64 of the exact quotient L/256.  Dividing by 2^8 only
shifts the binary exponent (the significand is L's), so this float equals
the exact rational `roundB64 L / 256`, and `math.floor` of it is natural
division by 256. -/
def floorFloatDiv256 (L : Nat) : Nat :=
  roundB64 L / 256

namespace BitStreamTransmitter

/-- The static method `_calc_num_required_packets(file_length)`:
`math.floor(file_length / 256)` of the float quotient when the length is
a multiple of 256, otherwise that floor plus 1. -/
def _calc_num_required_packets (file_length : Nat) : Nat :=
  if file_length % Packet.MAX_SIZE = 0 then floorFloatDiv256 file_length
  else floorFloatDiv256 file_length + 1

/-- The `_num_required_packets_int` property. -/
def _num_required_packets_int (t : BitStreamTransmitter) : Nat :=
  _calc_num_required_packets t._data.length

/-- The `_address` property: `Packet.int_to_bytes(self._addr_int, 4)`. -/
def _address (t : BitStreamTransmitter) : List Nat :=
  Packet.int_to_bytes t._addr_int 4

/-- The `_num_required_packets` property:
`Packet.int_to_bytes(self._num_required_packets_int, 4)`. -/
def _num_required_packets (t : BitStreamTransmitter) : List Nat :=
  Packet.int_to_bytes t._num_required_packets_int 4

/-- The metadata packet built by `_send_num_packets_and_address`:
`Packet(0x00, self._address + self._num_required_packets)`. -/
def metadata_packet (t : BitStreamTransmitter) : Packet :=
  Packet.make 0x00 (t._address ++ t._num_required_packets)

/-- The method `_send_num_packets_and_address()`: send the metadata packet (the
boolean result of `send_packet` is discarded). -/
def _send_num_packets_and_address (t : BitStreamTransmitter)
    (p : BitStreamTransferProtocol) : Option BitStreamTransferProtocol :=
  match p.send_packet t.metadata_packet with
  | none => none
  | some (_, p) => some p

/-- The body packet for chunk index `id`:
`Packet(id+1, self._data[id*MAX_SIZE:(id+1)*MAX_SIZE])`. -/
def body_packet (t : BitStreamTransmitter) (id : Nat) : Packet :=
  Packet.make (id + 1) (pySlice t._data (id * Packet.MAX_SIZE) ((id + 1) * Packet.MAX_SIZE))

/-- The body packets sent by `_send_bitfile_content`, in loop order. -/
def body_packets (t : BitStreamTransmitter) : List Packet :=
  (List.range t._num_required_packets_int).map t.body_packet

/-- Sending a list of packets in order, each result ignored (the body of
the `for` loop in `_send_bitfile_content`). -/
def sendPacketList (p : BitStreamTransferProtocol) :
    List Packet → Option BitStreamTransferProtocol
  | [] => some p
  | pkt :: rest =>
    match p.send_packet pkt with
    | none => none
    | some (_, p) => sendPacketList p rest

/-- The method `_send_bitfile_content()`. -/
def _send_bitfile_content (t : BitStreamTransmitter)
    (p : BitStreamTransferProtocol) : Option BitStreamTransferProtocol :=
  sendPacketList p t.body_packets

/-- The method `upload_bitstream_to(bitfile, address)`: the file's bytes are passed
directly (file loading is the out-of-scope collaborator).  Overwrites
`self._data` and `self._addr_int`, then start transmission, metadata
packet, body packets, stop transmission.  Returns the transmitter's new
state and the protocol state, or `none` when some blocking read never
returns. -/
def upload_bitstream_to (_t : BitStreamTransmitter) (file_bytes : List Nat)
    (address : Nat) (p : BitStreamTransferProtocol) :
    Option (BitStreamTransmitter × BitStreamTransferProtocol) :=
  let t : BitStreamTransmitter := { _data := file_bytes, _addr_int := address }
  match p.start_transmission with
  | none => none
  | some p =>
  match t._send_num_packets_and_address p with
  | none => none
  | some p =>
  match t._send_bitfile_content p with
  | none => none
  | some p =>
  match p.stop_transmission with
  | none => none
  | some p => some (t, p)

end BitStreamTransmitter

end Flasher

namespace Flasher

/-! Helper lemmas about `int_to_bytes`. -/

lemma and_255_eq_mod (x : Nat) : x &&& 0xff = x % 256 := by
  have h := Nat.and_pow_two_sub_one_eq_mod x 8
  norm_num at h
  exact h

lemma int_to_bytes_eq_map (v w : Nat) :
    Packet.int_to_bytes v w = (List.range w).reverse.map (fun i => v / 256 ^ i % 256) := by
  unfold Packet.int_to_bytes
  refine List.map_congr_left ?_
  intro i _
  rw [Nat.shiftRight_eq_div_pow, and_255_eq_mod]
  have h : (2 : Nat) ^ (i * 8) = 256 ^ i := by
    rw [mul_comm, pow_mul]; norm_num
  rw [h]

lemma int_to_bytes_zero (v : Nat) : Packet.int_to_bytes v 0 = [] := rfl

lemma int_to_bytes_succ (v w : Nat) :
    Packet.int_to_bytes v (w + 1) = v / 256 ^ w % 256 :: Packet.int_to_bytes v w := by
  rw [int_to_bytes_eq_map, int_to_bytes_eq_map, List.range_succ, List.reverse_append]
  simp

lemma int_to_bytes_one (v : Nat) : Packet.int_to_bytes v 1 = [v % 256] := by
  simp [int_to_bytes_eq_map, List.range_succ]

lemma int_to_bytes_two (v : Nat) : Packet.int_to_bytes v 2 = [v / 256 % 256, v % 256] := by
  simp [int_to_bytes_eq_map, List.range_succ]

lemma int_to_bytes_four (v : Nat) :
    Packet.int_to_bytes v 4 =
      [v / 256 ^ 3 % 256, v / 256 ^ 2 % 256, v / 256 % 256, v % 256] := by
  simp [int_to_bytes_eq_map, List.range_succ, pow_succ]

lemma int_to_bytes_length (v w : Nat) : (Packet.int_to_bytes v w).length = w := by
  simp [Packet.int_to_bytes]

lemma int_to_bytes_lt (v w : Nat) : ∀ b ∈ Packet.int_to_bytes v w, b < 256 := by
  intro b hb
  rw [int_to_bytes_eq_map] at hb
  rcases List.mem_map.mp hb with ⟨i, _, rfl⟩
  exact Nat.mod_lt _ (by norm_num)

/-- Interpreting a byte list as a big-endian number (used only to state what
"big-endian encoding" means in the specification). -/
def fromBigEndian (bytes : List Nat) : Nat :=
  bytes.foldl (fun acc b => acc * 256 + b) 0

lemma foldl_int_to_bytes (w : Nat) :
    ∀ v acc, (Packet.int_to_bytes v w).foldl (fun acc b => acc * 256 + b) acc
      = acc * 256 ^ w + v % 256 ^ w := by
  induction w with
  | zero => intro v acc; simp [int_to_bytes_zero, Nat.mod_one]
  | succ w ih =>
      intro v acc
      rw [int_to_bytes_succ, List.foldl_cons, ih]
      have key : v % 256 ^ (w + 1) = v % 256 ^ w + 256 ^ w * (v / 256 ^ w % 256) := by
        rw [pow_succ, Nat.mod_mul]
      rw [key]; ring

lemma int_to_bytes_mod (v w : Nat) :
    Packet.int_to_bytes (v % 256 ^ w) w = Packet.int_to_bytes v w := by
  rw [int_to_bytes_eq_map, int_to_bytes_eq_map]
  refine List.map_congr_left ?_
  intro i hi
  have hiw : i < w := List.mem_range.mp (List.mem_reverse.mp hi)
  have hsplit : (256 : Nat) ^ w = 256 ^ i * 256 ^ (w - i) := by
    rw [← pow_add]; congr 1; omega
  rw [hsplit, Nat.mod_mul_right_div_self]
  have hdvd : (256 : Nat) ∣ 256 ^ (w - i) := dvd_pow_self 256 (by omega)
  exact Nat.mod_mod_of_dvd _ hdvd

/-- C8: for every value and width, `int_to_bytes` returns exactly `w` bytes
(each below 256) forming the big-endian encoding of `value mod 2^(8*w)`:
decoding big-endian recovers `value mod 2^(8*w)`, encoding `value mod 2^(8*w)`
gives the identical bytes, and the conversion is total — values too large for
the width wrap silently. -/
theorem int_to_bytes_spec (value w : Nat) :
    (Packet.int_to_bytes value w).length = w ∧
    (∀ b ∈ Packet.int_to_bytes value w, b < 256) ∧
    fromBigEndian (Packet.int_to_bytes value w) = value % 2 ^ (8 * w) ∧
    Packet.int_to_bytes value w = Packet.int_to_bytes (value % 2 ^ (8 * w)) w := by
  have h28 : (2 : Nat) ^ (8 * w) = 256 ^ w := by rw [pow_mul]; norm_num
  refine ⟨int_to_bytes_length _ _, int_to_bytes_lt _ _, ?_, ?_⟩
  · rw [h28]
    simpa [fromBigEndian] using foldl_int_to_bytes w value 0
  · rw [h28, int_to_bytes_mod]

/-! Packet serialization layout. -/

lemma as_bytearray_layout (b : Nat) (p : List Nat)
    (hb : b < 2 ^ 16) (hp : p.length ≤ 256) :
    (Packet.make b p).as_bytearray =
      [SOH, b / 256, b % 256, p.length / 256, p.length % 256] ++ p ++ [p.sum % 256] := by
  have h1 : b / 256 % 256 = b / 256 := by omega
  have h2 : p.length / 256 % 256 = p.length / 256 := by omega
  have h3 : p.sum % 256 % 256 = p.sum % 256 := by omega
  simp [Packet.as_bytearray, Packet.make, Packet._payload_length, Packet._check_sum,
    int_to_bytes_two, int_to_bytes_one, and_255_eq_mod, h1, h2, h3]

/-- C1: serializing `Packet(b, p)` for a block id below 2^16 and a payload of
at most 256 bytes yields exactly `0x01`, the two big-endian bytes of `b`, the
two big-endian bytes of `len(p)`, the payload, and `sum(p) mod 256`, in this
fixed order. -/
theorem packet_wire_layout (b : Nat) (p : List Nat)
    (hb : b < 2 ^ 16) (hp : p.length ≤ 256) :
    (Packet.make b p).as_bytearray =
      [0x01] ++ [b / 256, b % 256] ++ [p.length / 256, p.length % 256]
        ++ p ++ [p.sum % 256] := by
  rw [as_bytearray_layout b p hb hp]
  simp [SOH]

/-- Witness for C1 at block id 258 and payload `[1, 2, 3]`. -/
theorem packet_wire_layout_witness :
    (258 : Nat) < 2 ^ 16 ∧ ([1, 2, 3] : List Nat).length ≤ 256 ∧
    (Packet.make 258 [1, 2, 3]).as_bytearray =
      [0x01] ++ [258 / 256, 258 % 256]
        ++ [([1, 2, 3] : List Nat).length / 256, ([1, 2, 3] : List Nat).length % 256]
        ++ [1, 2, 3] ++ [([1, 2, 3] : List Nat).sum % 256] :=
  ⟨by norm_num, by norm_num,
    packet_wire_layout 258 [1, 2, 3] (by norm_num) (by norm_num)⟩

/-- The exact integer chunk count `ceil(L / 256)` as the specification
computes it — the comparison point for the float-based count of the code. -/
def ceilDiv256 (L : Nat) : Nat :=
  if L % 256 = 0 then L / 256 else L / 256 + 1

lemma roundB64_of_le (n : Nat) (h : n ≤ 2 ^ 53) : roundB64 n = n := by
  unfold roundB64
  rw [if_pos h]

lemma calc_eq_ceilDiv256_of_le (L : Nat) (h : L ≤ 2 ^ 53) :
    BitStreamTransmitter._calc_num_required_packets L = ceilDiv256 L := by
  unfold BitStreamTransmitter._calc_num_required_packets floorFloatDiv256 ceilDiv256
    Packet.MAX_SIZE
  rw [roundB64_of_le L h]

/-- Counterexample for C3: at L = 2^54 - 1 the binary64 quotient L/256
rounds up to the whole number 2^46, `math.floor` keeps it, and the nonzero
remainder branch still adds one, so the code computes 2^46 + 1 while
ceil(L/256) = 2^46. -/
theorem calc_float_ceil_cex :
    BitStreamTransmitter._calc_num_required_packets (2 ^ 54 - 1)
      ≠ (2 ^ 54 - 1 + 255) / 256 := by
  decide

/-- C3 (amended): for every file length L up to 2^53 — the range where the
binary64 quotient L/256 is exact — the computed packet count equals
`ceil(L / 256)` (as naturals, `(L + 255) / 256`), in particular 0 for the
empty file and 1 (not 2) for a 256-byte file.  Beyond 2^53 the float
quotient can round and the count differ (see the counterexample). -/
theorem calc_num_required_packets_ceil (L : Nat) (hL : L ≤ 2 ^ 53) :
    BitStreamTransmitter._calc_num_required_packets L = (L + 255) / 256 ∧
    BitStreamTransmitter._calc_num_required_packets 0 = 0 ∧
    BitStreamTransmitter._calc_num_required_packets 256 = 1 := by
  refine ⟨?_, by decide, by decide⟩
  rw [calc_eq_ceilDiv256_of_le L hL]
  unfold ceilDiv256
  split <;> omega

/-- Witness for C3 (amended) at L = 300. -/
theorem calc_num_required_packets_ceil_witness :
    (300 : Nat) ≤ 2 ^ 53 ∧
    (BitStreamTransmitter._calc_num_required_packets 300 = (300 + 255) / 256 ∧
     BitStreamTransmitter._calc_num_required_packets 0 = 0 ∧
     BitStreamTransmitter._calc_num_required_packets 256 = 1) :=
  ⟨by norm_num, calc_num_required_packets_ceil 300 (by norm_num)⟩

/-- C9: reading the `block_number` property always signals the usage error
`PermissionError('Block number is write-only')` and never yields a value, for
every packet however constructed, while writing it succeeds and stores the
two-byte encoding of the new value (leaving the payload unchanged). -/
theorem block_number_write_only (p : Packet) (v : Nat) :
    Packet.block_number p = Except.error "Block number is write-only" ∧
    (Packet.set_block_number p v)._block_number = Packet.int_to_bytes v 2 ∧
    (Packet.set_block_number p v)._payload = p._payload :=
  ⟨rfl, rfl, rfl⟩

end Flasher

namespace Flasher

/-! Chunking lemmas for the body packets. -/

lemma ceilDiv256_eq_zero_iff (L : Nat) : ceilDiv256 L = 0 ↔ L = 0 := by
  unfold ceilDiv256
  split <;> omega

lemma ceilDiv256_succ_drop (L n : Nat) (h : ceilDiv256 L = n + 1) :
    ceilDiv256 (L - 256) = n := by
  unfold ceilDiv256 at *
  split at h <;> split <;> omega

lemma chunks_flatten : ∀ (n : Nat) (l : List Nat),
    ceilDiv256 l.length = n →
    ((List.range n).map (fun i => (l.drop (i * 256)).take 256)).flatten = l := by
  intro n
  induction n with
  | zero =>
      intro l h
      have hl : l = [] := List.length_eq_zero.mp ((ceilDiv256_eq_zero_iff _).mp h)
      simp [hl]
  | succ n ih =>
      intro l h
      have hrec : ceilDiv256 (l.drop 256).length = n := by
        rw [List.length_drop]
        exact ceilDiv256_succ_drop _ _ h
      have ih' := ih (l.drop 256) hrec
      rw [List.range_succ_eq_map, List.map_cons, List.map_map, List.flatten_cons]
      have hmap : (List.range n).map ((fun i => (l.drop (i * 256)).take 256) ∘ Nat.succ)
          = (List.range n).map (fun i => ((l.drop 256).drop (i * 256)).take 256) := by
        refine List.map_congr_left ?_
        intro i _
        simp only [Function.comp_apply, List.drop_drop]
        congr 2
        omega
      rw [hmap, ih']
      simp

/-- A list of lists each of length at most `c` flattens to a list of length
at most `c` times the number of lists. -/
lemma flatten_length_le (ls : List (List Nat)) (c : Nat)
    (h : ∀ x ∈ ls, x.length ≤ c) : ls.flatten.length ≤ ls.length * c := by
  induction ls with
  | nil => simp
  | cons a ls ih =>
      have h1 : a.length ≤ c := h a (by simp)
      have h2 : ls.flatten.length ≤ ls.length * c :=
        ih (fun x hx => h x (by simp [hx]))
      calc (a :: ls).flatten.length = a.length + ls.flatten.length := by
            simp [List.flatten_cons]
        _ ≤ c + ls.length * c := Nat.add_le_add h1 h2
        _ = (a :: ls).length * c := by simp [List.length_cons]; ring

/-- Counterexample for C2: at a file of 2^61 + 256 bytes the float-based
packet count undershoots — the quotient (2^61 + 256)/256 = 2^53 + 1 is not
representable in binary64 and rounds down to 2^53 — so the loop builds only
2^53 body packets and their concatenated payloads are at least 256 bytes
shorter than the file. -/
theorem body_packets_chunking_cex :
    ¬ (((BitStreamTransmitter.mk (List.replicate (2 ^ 61 + 256) 37) 0).body_packets.map
          Packet._payload).flatten = List.replicate (2 ^ 61 + 256) 37) := by
  intro h
  have hlen := congrArg List.length h
  rw [List.length_replicate] at hlen
  have hb : ∀ x ∈ ((BitStreamTransmitter.mk (List.replicate (2 ^ 61 + 256) 37)
      0).body_packets.map Packet._payload), x.length ≤ 256 := by
    intro x hx
    simp only [BitStreamTransmitter.body_packets, List.map_map, List.mem_map,
      List.mem_range, Function.comp_apply] at hx
    obtain ⟨i, _, rfl⟩ := hx
    simp only [BitStreamTransmitter.body_packet, Packet.make, pySlice]
    rw [List.length_take]
    have hsz : (i + 1) * Packet.MAX_SIZE - i * Packet.MAX_SIZE = 256 := by
      show (i + 1) * 256 - i * 256 = 256
      omega
    rw [hsz]
    exact Nat.min_le_left _ _
  have hle := flatten_length_le _ 256 hb
  have hcnt : ((BitStreamTransmitter.mk (List.replicate (2 ^ 61 + 256) 37)
      0).body_packets.map Packet._payload).length = 2 ^ 53 := by
    simp only [List.length_map, BitStreamTransmitter.body_packets, List.length_range,
      BitStreamTransmitter._num_required_packets_int, List.length_replicate]
    decide
  rw [hcnt, hlen] at hle
  norm_num at hle

/-- C2 (amended): for every file of at most 2^53 bytes — the range where the
packet count is computed exactly — the body packets built for transmission
are, in loop order, exactly `Packet(i+1, file[i*256:(i+1)*256])` for
`i = 0, 1, ...` — so block ids run 1, 2, ..., packet_count in increasing
order — every payload has at most 256 bytes, and concatenating all body
payloads in this order reproduces the file exactly (any such length,
including 0).  Beyond 2^53 the float-based count can undershoot and the
concatenation lose bytes (see the counterexample). -/
theorem body_packets_chunking (file : List Nat) (addr : Nat)
    (hfile : file.length ≤ 2 ^ 53) :
    (BitStreamTransmitter.mk file addr).body_packets.length
        = BitStreamTransmitter._calc_num_required_packets file.length ∧
    (∀ i, i < (BitStreamTransmitter.mk file addr).body_packets.length →
        (BitStreamTransmitter.mk file addr).body_packets[i]? =
          some (Packet.make (i + 1) (pySlice file (i * 256) ((i + 1) * 256))) ∧
        (pySlice file (i * 256) ((i + 1) * 256)).length ≤ 256) ∧
    ((BitStreamTransmitter.mk file addr).body_packets.map Packet._payload).flatten
        = file := by
  refine ⟨?_, ?_, ?_⟩
  · simp [BitStreamTransmitter.body_packets, BitStreamTransmitter._num_required_packets_int]
  · intro i hi
    simp only [BitStreamTransmitter.body_packets, List.length_map, List.length_range] at hi
    constructor
    · simp [BitStreamTransmitter.body_packets, List.getElem?_map, List.getElem?_range, hi,
        BitStreamTransmitter.body_packet, Packet.MAX_SIZE]
    · simp only [pySlice, List.length_take, List.length_drop]
      omega
  · have hmap : (BitStreamTransmitter.mk file addr).body_packets.map Packet._payload
        = (List.range (ceilDiv256 file.length)).map
            (fun i => (file.drop (i * 256)).take 256) := by
      simp only [BitStreamTransmitter.body_packets, List.map_map,
        BitStreamTransmitter._num_required_packets_int,
        calc_eq_ceilDiv256_of_le file.length hfile]
      refine List.map_congr_left ?_
      intro i _
      simp only [Function.comp_apply, BitStreamTransmitter.body_packet, Packet.make,
        pySlice, Packet.MAX_SIZE]
      congr 1
      omega
    rw [hmap]
    exact chunks_flatten _ file rfl

/-- Witness for C2 at the three-byte file `[1, 2, 3]` (one body packet),
exercising the per-index fact at index 0. -/
theorem body_packets_chunking_witness :
    ([1, 2, 3] : List Nat).length ≤ 2 ^ 53 ∧
    (BitStreamTransmitter.mk [1, 2, 3] 0).body_packets.length
        = BitStreamTransmitter._calc_num_required_packets ([1, 2, 3] : List Nat).length ∧
    0 < (BitStreamTransmitter.mk [1, 2, 3] 0).body_packets.length ∧
    (BitStreamTransmitter.mk [1, 2, 3] 0).body_packets[0]? =
        some (Packet.make (0 + 1) (pySlice [1, 2, 3] (0 * 256) ((0 + 1) * 256))) ∧
    (pySlice [1, 2, 3] (0 * 256) ((0 + 1) * 256)).length ≤ 256 ∧
    ((BitStreamTransmitter.mk [1, 2, 3] 0).body_packets.map Packet._payload).flatten
        = [1, 2, 3] :=
  have h := body_packets_chunking [1, 2, 3] 0 (by norm_num)
  have h0 : 0 < (BitStreamTransmitter.mk [1, 2, 3] 0).body_packets.length := by decide
  ⟨by norm_num, h.1, h0, (h.2.1 0 h0).1, (h.2.1 0 h0).2, h.2.2⟩

/-- C5: the metadata packet has block id 0 and its payload is exactly 8
bytes: the 4-byte big-endian encoding of the target address followed by the
4-byte big-endian encoding of the packet count (both assumed below 2^32). -/
theorem metadata_packet_spec (file : List Nat) (addr : Nat)
    (ha : addr < 2 ^ 32)
    (hc : BitStreamTransmitter._calc_num_required_packets file.length < 2 ^ 32) :
    (BitStreamTransmitter.mk file addr).metadata_packet._block_number = [0, 0] ∧
    (BitStreamTransmitter.mk file addr).metadata_packet._payload =
      [addr / 256 ^ 3, addr / 256 ^ 2 % 256, addr / 256 % 256, addr % 256]
        ++ [BitStreamTransmitter._calc_num_required_packets file.length / 256 ^ 3,
            BitStreamTransmitter._calc_num_required_packets file.length / 256 ^ 2 % 256,
            BitStreamTransmitter._calc_num_required_packets file.length / 256 % 256,
            BitStreamTransmitter._calc_num_required_packets file.length % 256] ∧
    (BitStreamTransmitter.mk file addr).metadata_packet._payload.length = 8 := by
  have e3 : (256 : Nat) ^ 3 = 16777216 := by norm_num
  have e32 : (2 : Nat) ^ 32 = 4294967296 := by norm_num
  rw [e32] at ha hc
  refine ⟨rfl, ?_, ?_⟩
  · show Packet.int_to_bytes addr 4
        ++ Packet.int_to_bytes (BitStreamTransmitter._calc_num_required_packets file.length) 4
        = _
    rw [int_to_bytes_four, int_to_bytes_four]
    have h1 : addr / 256 ^ 3 % 256 = addr / 256 ^ 3 := by rw [e3]; omega
    have h2 : BitStreamTransmitter._calc_num_required_packets file.length / 256 ^ 3 % 256
        = BitStreamTransmitter._calc_num_required_packets file.length / 256 ^ 3 := by
      rw [e3]; omega
    rw [h1, h2]
  · show (Packet.int_to_bytes addr 4
        ++ Packet.int_to_bytes (BitStreamTransmitter._calc_num_required_packets file.length) 4).length
        = 8
    simp [int_to_bytes_length]

/-- Witness for C5 at the one-byte file `[7]` (packet count 1) and address 3. -/
theorem metadata_packet_spec_witness :
    (3 : Nat) < 2 ^ 32 ∧
    BitStreamTransmitter._calc_num_required_packets ([7] : List Nat).length < 2 ^ 32 ∧
    ((BitStreamTransmitter.mk [7] 3).metadata_packet._block_number = [0, 0] ∧
     (BitStreamTransmitter.mk [7] 3).metadata_packet._payload =
       [3 / 256 ^ 3, 3 / 256 ^ 2 % 256, 3 / 256 % 256, 3 % 256]
         ++ [BitStreamTransmitter._calc_num_required_packets ([7] : List Nat).length / 256 ^ 3,
             BitStreamTransmitter._calc_num_required_packets ([7] : List Nat).length / 256 ^ 2 % 256,
             BitStreamTransmitter._calc_num_required_packets ([7] : List Nat).length / 256 % 256,
             BitStreamTransmitter._calc_num_required_packets ([7] : List Nat).length % 256] ∧
     (BitStreamTransmitter.mk [7] 3).metadata_packet._payload.length = 8) :=
  ⟨by norm_num, by decide, metadata_packet_spec [7] 3 (by norm_num) (by decide)⟩

end Flasher

namespace Flasher

/-- Modelled from the spec: a deserializer that reads the header fields of a
frame — the start-of-header byte, the two big-endian block-id bytes and the
two big-endian payload-length bytes — then takes that many payload bytes
followed by the single checksum byte, recovering the block id and payload.
(The repository contains no deserializer; this definition follows §8 of the
specification and is the comparison point for the round-trip property.) -/
def deserialize (frame : List Nat) : Option (Nat × List Nat) :=
  match frame with
  | soh :: b1 :: b2 :: l1 :: l2 :: rest =>
    if soh = SOH ∧ rest.length = (l1 * 256 + l2) + 1 then
      some (b1 * 256 + b2, rest.take (l1 * 256 + l2))
    else none
  | _ => none

/-- C6: for every block id below 2^16 and payload of at most 256 bytes, the
serialized frame uniquely determines the pair: reading the header fields back
recovers exactly the block id and the payload, and the final byte of the
frame is `sum(payload) mod 256`. -/
theorem serialize_deserialize_roundtrip (b : Nat) (p : List Nat)
    (hb : b < 2 ^ 16) (hp : p.length ≤ 256) :
    deserialize (Packet.make b p).as_bytearray = some (b, p) ∧
    (Packet.make b p).as_bytearray.getLast? = some (p.sum % 256) := by
  rw [as_bytearray_layout b p hb hp]
  constructor
  · have hstep : deserialize
        ([SOH, b / 256, b % 256, p.length / 256, p.length % 256] ++ p ++ [p.sum % 256])
        = if SOH = SOH ∧ (p ++ [p.sum % 256]).length
            = (p.length / 256 * 256 + p.length % 256) + 1 then
            some (b / 256 * 256 + b % 256,
              (p ++ [p.sum % 256]).take (p.length / 256 * 256 + p.length % 256))
          else none := rfl
    have hcond : SOH = SOH ∧ (p ++ [p.sum % 256]).length
        = (p.length / 256 * 256 + p.length % 256) + 1 := by
      refine ⟨rfl, ?_⟩
      rw [List.length_append]
      simp
      omega
    rw [hstep, if_pos hcond]
    have h1 : b / 256 * 256 + b % 256 = b := by omega
    have h2 : p.length / 256 * 256 + p.length % 256 = p.length := by omega
    rw [h1, h2, List.take_left' rfl]
  · exact List.getLast?_concat _

/-- Witness for C6 at block id 7 and payload `[10, 20]`. -/
theorem serialize_deserialize_roundtrip_witness :
    (7 : Nat) < 2 ^ 16 ∧ ([10, 20] : List Nat).length ≤ 256 ∧
    deserialize (Packet.make 7 [10, 20]).as_bytearray = some (7, [10, 20]) ∧
    (Packet.make 7 [10, 20]).as_bytearray.getLast?
      = some (([10, 20] : List Nat).sum % 256) :=
  have h := serialize_deserialize_roundtrip 7 [10, 20] (by norm_num) (by norm_num)
  ⟨by norm_num, by norm_num, h.1, h.2⟩

/-! The acknowledgement wait. -/

lemma waitForChars_spec (chars : List Nat) (b : Nat) :
    ∀ (pre rest : List Nat), (∀ x ∈ pre, x ∉ chars) → b ∈ chars →
      waitForChars chars (pre ++ b :: rest) = some (b, rest) := by
  intro pre
  induction pre with
  | nil =>
      intro rest _ hb
      simp [waitForChars, hb]
  | cons x pre ih =>
      intro rest hpre hb
      have hx : x ∉ chars := hpre x (by simp)
      simp only [List.cons_append, waitForChars, if_neg hx]
      exact ih rest (fun y hy => hpre y (by simp [hy])) hb

/-- C7: `send_packet` on a reply stream made of a prefix free of ACK/NAK, a
first ACK-or-NAK byte `b`, and a remainder, first appends the packet's
serialized bytes to the transport output, consumes the reply bytes exactly up
to and including `b` (discarding the prefix), returns true iff `b` is ACK,
and performs no internal retry (the packet bytes appear once and the
remainder of the stream is untouched). -/
theorem send_packet_spec (pkt : Packet) (pre rest out : List Nat) (b : Nat)
    (m : Option Nat)
    (hpre : ∀ x ∈ pre, x ≠ ACK ∧ x ≠ NAK) (hb : b = ACK ∨ b = NAK) :
    BitStreamTransferProtocol.send_packet ⟨⟨pre ++ b :: rest, out⟩, m⟩ pkt =
      some (decide (b = ACK), ⟨⟨rest, out ++ pkt.as_bytearray⟩, m⟩) := by
  have hwait : waitForChars [ACK, NAK] (pre ++ b :: rest) = some (b, rest) := by
    refine waitForChars_spec [ACK, NAK] b pre rest ?_ ?_
    · intro x hx
      have := hpre x hx
      simp [this.1, this.2]
    · rcases hb with h | h <;> simp [h]
  show BitStreamTransferProtocol._wait_for_ack
      ⟨⟨pre ++ b :: rest, out ++ pkt.as_bytearray⟩, m⟩ = _
  unfold BitStreamTransferProtocol._wait_for_ack BitStreamTransferProtocol._wait_for_chars
  rw [hwait]

/-- Witness for C7: a NAK arrives after two junk bytes, so `send_packet`
returns false having consumed exactly the junk and the NAK. -/
theorem send_packet_spec_witness :
    (∀ x ∈ ([0, 99] : List Nat), x ≠ ACK ∧ x ≠ NAK) ∧
    ((0x15 : Nat) = ACK ∨ (0x15 : Nat) = NAK) ∧
    BitStreamTransferProtocol.send_packet
        ⟨⟨[0, 99] ++ 0x15 :: [1, 2], [9]⟩, some 0x43⟩ (Packet.make 1 [5]) =
      some (decide ((0x15 : Nat) = ACK),
        ⟨⟨[1, 2], [9] ++ (Packet.make 1 [5]).as_bytearray⟩, some 0x43⟩) :=
  ⟨by decide, by decide,
    send_packet_spec (Packet.make 1 [5]) [0, 99] [1, 2] [9] 0x15 (some 0x43)
      (by decide) (by decide)⟩

end Flasher

namespace Flasher

/-! Equation lemmas reducing each protocol operation on an explicit state. -/

lemma start_transmission_eq (inp out : List Nat) (m : Option Nat) :
    BitStreamTransferProtocol.start_transmission ⟨⟨inp, out⟩, m⟩ =
      match waitForChars [Cchar, NAK] inp with
      | none => none
      | some (ch, rest) => some ⟨⟨rest, out ++ [START_TRANSMISSION]⟩, some ch⟩ := by
  cases hw : waitForChars [Cchar, NAK] inp with
  | none =>
      simp [BitStreamTransferProtocol.start_transmission, BitStreamTransferProtocol._write,
        BitStreamTransferProtocol._check_crc_mode, BitStreamTransferProtocol._wait_for_chars,
        SerialPort.write, hw]
  | some pair =>
      obtain ⟨ch, rest⟩ := pair
      simp [BitStreamTransferProtocol.start_transmission, BitStreamTransferProtocol._write,
        BitStreamTransferProtocol._check_crc_mode, BitStreamTransferProtocol._wait_for_chars,
        SerialPort.write, hw]

lemma send_packet_eq (inp out : List Nat) (m : Option Nat) (pkt : Packet) :
    BitStreamTransferProtocol.send_packet ⟨⟨inp, out⟩, m⟩ pkt =
      match waitForChars [ACK, NAK] inp with
      | none => none
      | some (ch, rest) =>
          some (decide (ch = ACK), ⟨⟨rest, out ++ pkt.as_bytearray⟩, m⟩) := by
  cases hw : waitForChars [ACK, NAK] inp with
  | none =>
      simp [BitStreamTransferProtocol.send_packet, BitStreamTransferProtocol._wait_for_ack,
        BitStreamTransferProtocol._wait_for_chars, SerialPort.write, hw]
  | some pair =>
      obtain ⟨ch, rest⟩ := pair
      simp [BitStreamTransferProtocol.send_packet, BitStreamTransferProtocol._wait_for_ack,
        BitStreamTransferProtocol._wait_for_chars, SerialPort.write, hw]

lemma stop_transmission_eq (inp out : List Nat) (m : Option Nat) :
    BitStreamTransferProtocol.stop_transmission ⟨⟨inp, out⟩, m⟩ =
      match readUntilByte ACK inp with
      | none => none
      | some rest => some ⟨⟨rest, out ++ [EOT]⟩, m⟩ := by
  cases hr : readUntilByte ACK inp with
  | none =>
      simp [BitStreamTransferProtocol.stop_transmission, BitStreamTransferProtocol._write,
        SerialPort.write, hr]
  | some rest =>
      simp [BitStreamTransferProtocol.stop_transmission, BitStreamTransferProtocol._write,
        SerialPort.write, hr]

lemma sendPacketList_some_output : ∀ (pkts : List Packet)
    (p q : BitStreamTransferProtocol),
    BitStreamTransmitter.sendPacketList p pkts = some q →
    q.sp.output = p.sp.output ++ (pkts.map Packet.as_bytearray).flatten ∧
    q._crc_mode = p._crc_mode := by
  intro pkts
  induction pkts with
  | nil =>
      intro p q h
      simp only [BitStreamTransmitter.sendPacketList, Option.some.injEq] at h
      subst h
      simp
  | cons pkt pkts ih =>
      intro p q h
      obtain ⟨⟨inp, out⟩, m⟩ := p
      simp only [BitStreamTransmitter.sendPacketList] at h
      rw [send_packet_eq] at h
      cases hw : waitForChars [ACK, NAK] inp with
      | none => rw [hw] at h; simp at h
      | some pair =>
          obtain ⟨ch, rest⟩ := pair
          rw [hw] at h
          simp at h
          have hrec := ih _ _ h
          simp at hrec
          refine ⟨?_, hrec.2⟩
          rw [hrec.1]
          simp

end Flasher

namespace Flasher

lemma upload_some_shape (t : BitStreamTransmitter) (file : List Nat) (addr : Nat)
    (inp out : List Nat) (m : Option Nat) (t' : BitStreamTransmitter)
    (q : BitStreamTransferProtocol)
    (h : t.upload_bitstream_to file addr ⟨⟨inp, out⟩, m⟩ = some (t', q)) :
    t' = BitStreamTransmitter.mk file addr ∧
    q.sp.output = out ++ [START_TRANSMISSION]
      ++ (BitStreamTransmitter.mk file addr).metadata_packet.as_bytearray
      ++ ((BitStreamTransmitter.mk file addr).body_packets.map Packet.as_bytearray).flatten
      ++ [EOT] := by
  simp only [BitStreamTransmitter.upload_bitstream_to] at h
  rw [start_transmission_eq] at h
  cases hw1 : waitForChars [Cchar, NAK] inp with
  | none => rw [hw1] at h; simp at h
  | some pair =>
      obtain ⟨ch, rest⟩ := pair
      rw [hw1] at h
      simp only [BitStreamTransmitter._send_num_packets_and_address] at h
      rw [send_packet_eq] at h
      cases hw2 : waitForChars [ACK, NAK] rest with
      | none => rw [hw2] at h; simp at h
      | some pair2 =>
          obtain ⟨ch2, rest2⟩ := pair2
          rw [hw2] at h
          simp only [BitStreamTransmitter._send_bitfile_content] at h
          simp at h
          split at h
          · simp at h
          · rename_i q3 heq3
            obtain ⟨⟨inp3, out3⟩, m3⟩ := q3
            rw [stop_transmission_eq] at h
            cases hw4 : readUntilByte ACK inp3 with
            | none => rw [hw4] at h; simp at h
            | some rest4 =>
                rw [hw4] at h
                simp at h
                obtain ⟨ht', hq⟩ := h
                subst ht'
                subst hq
                have hout := sendPacketList_some_output _ _ _ heq3
                simp at hout
                refine ⟨rfl, ?_⟩
                show out3 ++ [EOT] = _
                rw [hout.1]
                simp

end Flasher

namespace Flasher

/-- Counterexample for C4's "exactly packet_count = ceil(L/256) body
packets": at a file of 2^54 - 1 bytes the transmission builds 2^46 + 1 body
packets, one more than ceil(L/256) = 2^46, because the float-based count
overshoots there. -/
theorem upload_packet_count_cex :
    ((BitStreamTransmitter.mk (List.replicate (2 ^ 54 - 1) 0) 0).body_packets).length
      ≠ (2 ^ 54 - 1 + 255) / 256 := by
  simp only [BitStreamTransmitter.body_packets, List.length_map, List.length_range,
    BitStreamTransmitter._num_required_packets_int, List.length_replicate]
  decide

/-- C4 (amended): whenever `upload_bitstream_to` completes on any file
(including the empty one) and any reply stream, the bytes written to the
transport are exactly: the start byte `'1'`, then the single metadata
packet, then the body packets — as many as the computed packet count — in
order, then EOT, and nothing else.  The boolean results of `send_packet`
(ACK or NAK) never alter this sequence, since the reply stream is
universally quantified; the transmitter state afterwards holds the new file
and address.  (The computed count coincides with ceil(L/256) only below the
float-exactness bound; see the counterexample.) -/
theorem upload_transmission_sequence (t : BitStreamTransmitter) (file : List Nat)
    (addr : Nat) (inp out : List Nat) (m : Option Nat)
    (t' : BitStreamTransmitter) (q : BitStreamTransferProtocol)
    (h : t.upload_bitstream_to file addr ⟨⟨inp, out⟩, m⟩ = some (t', q)) :
    q.sp.output = out ++ [START_TRANSMISSION]
        ++ (BitStreamTransmitter.mk file addr).metadata_packet.as_bytearray
        ++ ((BitStreamTransmitter.mk file addr).body_packets.map Packet.as_bytearray).flatten
        ++ [EOT] ∧
    (BitStreamTransmitter.mk file addr).body_packets.length
        = BitStreamTransmitter._calc_num_required_packets file.length ∧
    t' = BitStreamTransmitter.mk file addr := by
  have hs := upload_some_shape t file addr inp out m t' q h
  refine ⟨hs.2, ?_, hs.1⟩
  simp [BitStreamTransmitter.body_packets, BitStreamTransmitter._num_required_packets_int]

/-- Witness for C4: a run over the file `[1, 2, 3]` whose packets are all
answered with NAK (only the handshake byte `C` and the final ACK differ)
still performs the full sequence. -/
theorem upload_transmission_sequence_witness :
    (BitStreamTransmitter.mk [9, 9] 7).upload_bitstream_to [1, 2, 3] 5
        ⟨⟨[0x43, 0x15, 0x15, 0x06], []⟩, none⟩
      = some (BitStreamTransmitter.mk [1, 2, 3] 5,
          ⟨⟨[], [0x31, 1, 0, 0, 0, 8, 0, 0, 0, 5, 0, 0, 0, 1, 6,
                 1, 0, 1, 0, 3, 1, 2, 3, 6, 4]⟩, some 0x43⟩) ∧
    (([0x31, 1, 0, 0, 0, 8, 0, 0, 0, 5, 0, 0, 0, 1, 6,
       1, 0, 1, 0, 3, 1, 2, 3, 6, 4] : List Nat)
        = [] ++ [START_TRANSMISSION]
          ++ (BitStreamTransmitter.mk [1, 2, 3] 5).metadata_packet.as_bytearray
          ++ ((BitStreamTransmitter.mk [1, 2, 3] 5).body_packets.map
                Packet.as_bytearray).flatten
          ++ [EOT] ∧
     (BitStreamTransmitter.mk [1, 2, 3] 5).body_packets.length
        = BitStreamTransmitter._calc_num_required_packets ([1, 2, 3] : List Nat).length ∧
     BitStreamTransmitter.mk [1, 2, 3] 5 = BitStreamTransmitter.mk [1, 2, 3] 5) :=
  ⟨by rfl,
    upload_transmission_sequence (BitStreamTransmitter.mk [9, 9] 7) [1, 2, 3] 5
      [0x43, 0x15, 0x15, 0x06] [] none (BitStreamTransmitter.mk [1, 2, 3] 5)
      ⟨⟨[], [0x31, 1, 0, 0, 0, 8, 0, 0, 0, 5, 0, 0, 0, 1, 6,
             1, 0, 1, 0, 3, 1, 2, 3, 6, 4]⟩, some 0x43⟩ (by rfl)⟩

end Flasher

namespace Flasher

lemma sendPacketList_det_input : ∀ (pkts : List Packet) (inp o1 o2 : List Nat)
    (m1 m2 : Option Nat) (q1 q2 : BitStreamTransferProtocol),
    BitStreamTransmitter.sendPacketList ⟨⟨inp, o1⟩, m1⟩ pkts = some q1 →
    BitStreamTransmitter.sendPacketList ⟨⟨inp, o2⟩, m2⟩ pkts = some q2 →
    q1.sp.input = q2.sp.input := by
  intro pkts
  induction pkts with
  | nil =>
      intro inp o1 o2 m1 m2 q1 q2 h1 h2
      simp only [BitStreamTransmitter.sendPacketList, Option.some.injEq] at h1 h2
      subst h1
      subst h2
      rfl
  | cons pkt pkts ih =>
      intro inp o1 o2 m1 m2 q1 q2 h1 h2
      simp only [BitStreamTransmitter.sendPacketList] at h1 h2
      rw [send_packet_eq] at h1 h2
      cases hw : waitForChars [ACK, NAK] inp with
      | none => rw [hw] at h1; simp at h1
      | some pair =>
          obtain ⟨ch, rest⟩ := pair
          rw [hw] at h1 h2
          simp at h1 h2
          exact ih _ _ _ _ _ _ _ h1 h2

lemma upload_det_input_crc (t1 t2 : BitStreamTransmitter) (file : List Nat)
    (addr : Nat) (inp out1 out2 : List Nat) (m1 m2 : Option Nat)
    (t1' t2' : BitStreamTransmitter) (q1 q2 : BitStreamTransferProtocol)
    (h1 : t1.upload_bitstream_to file addr ⟨⟨inp, out1⟩, m1⟩ = some (t1', q1))
    (h2 : t2.upload_bitstream_to file addr ⟨⟨inp, out2⟩, m2⟩ = some (t2', q2)) :
    q1.sp.input = q2.sp.input ∧ q1._crc_mode = q2._crc_mode := by
  simp only [BitStreamTransmitter.upload_bitstream_to] at h1 h2
  rw [start_transmission_eq] at h1 h2
  cases hw1 : waitForChars [Cchar, NAK] inp with
  | none => rw [hw1] at h1; simp at h1
  | some pair =>
      obtain ⟨ch, rest⟩ := pair
      rw [hw1] at h1 h2
      simp only [BitStreamTransmitter._send_num_packets_and_address] at h1 h2
      rw [send_packet_eq] at h1 h2
      cases hw2 : waitForChars [ACK, NAK] rest with
      | none => rw [hw2] at h1; simp at h1
      | some pair2 =>
          obtain ⟨ch2, rest2⟩ := pair2
          rw [hw2] at h1 h2
          simp only [BitStreamTransmitter._send_bitfile_content] at h1 h2
          simp at h1 h2
          split at h1
          · simp at h1
          · rename_i q3a heq3a
            split at h2
            · simp at h2
            · rename_i q3b heq3b
              have hin3 := sendPacketList_det_input _ _ _ _ _ _ _ _ heq3a heq3b
              have hc3a := (sendPacketList_some_output _ _ _ heq3a).2
              have hc3b := (sendPacketList_some_output _ _ _ heq3b).2
              obtain ⟨⟨inp3a, out3a⟩, m3a⟩ := q3a
              obtain ⟨⟨inp3b, out3b⟩, m3b⟩ := q3b
              simp at hin3 hc3a hc3b
              subst hin3
              subst hc3a
              subst hc3b
              rw [stop_transmission_eq] at h1 h2
              cases hw4 : readUntilByte ACK inp3a with
              | none => rw [hw4] at h1; simp at h1
              | some rest4 =>
                  rw [hw4] at h1 h2
                  simp at h1 h2
                  obtain ⟨hta, hqa⟩ := h1
                  obtain ⟨htb, hqb⟩ := h2
                  subst hqa
                  subst hqb
                  exact ⟨rfl, rfl⟩

/-- C10: the byte sequence `upload_bitstream_to` writes is a deterministic
function of the file contents, the target address and the reply stream
alone: two completed runs with identical file, address and replies — but
arbitrary prior transmitter state, prior `_crc_mode`, and prior transport
output — leave identical transmitter state, identical unread input,
identical mode flag, and write the same bytes after their respective prior
output. -/
theorem upload_deterministic (t1 t2 : BitStreamTransmitter) (file : List Nat)
    (addr : Nat) (inp out1 out2 : List Nat) (m1 m2 : Option Nat)
    (t1' t2' : BitStreamTransmitter) (q1 q2 : BitStreamTransferProtocol)
    (h1 : t1.upload_bitstream_to file addr ⟨⟨inp, out1⟩, m1⟩ = some (t1', q1))
    (h2 : t2.upload_bitstream_to file addr ⟨⟨inp, out2⟩, m2⟩ = some (t2', q2)) :
    t1' = t2' ∧ q1.sp.input = q2.sp.input ∧ q1._crc_mode = q2._crc_mode ∧
    ∃ w, q1.sp.output = out1 ++ w ∧ q2.sp.output = out2 ++ w := by
  have hs1 := upload_some_shape t1 file addr inp out1 m1 t1' q1 h1
  have hs2 := upload_some_shape t2 file addr inp out2 m2 t2' q2 h2
  have hic := upload_det_input_crc t1 t2 file addr inp out1 out2 m1 m2 t1' t2' q1 q2 h1 h2
  refine ⟨hs1.1.trans hs2.1.symm, hic.1, hic.2, ?_⟩
  refine ⟨[START_TRANSMISSION]
      ++ (BitStreamTransmitter.mk file addr).metadata_packet.as_bytearray
      ++ ((BitStreamTransmitter.mk file addr).body_packets.map Packet.as_bytearray).flatten
      ++ [EOT], ?_, ?_⟩
  · rw [hs1.2]; simp
  · rw [hs2.2]; simp

/-- Witness for C10: two runs over the file `[1, 2, 3]` with the same reply
stream but different prior transmitter state, prior mode flag and prior
output end in the same state and write the same bytes. -/
theorem upload_deterministic_witness :
    (BitStreamTransmitter.mk [5] 1).upload_bitstream_to [1, 2, 3] 5
        ⟨⟨[0x43, 0x15, 0x15, 0x06], [9]⟩, some 0⟩
      = some (BitStreamTransmitter.mk [1, 2, 3] 5,
          ⟨⟨[], [9, 0x31, 1, 0, 0, 0, 8, 0, 0, 0, 5, 0, 0, 0, 1, 6,
                 1, 0, 1, 0, 3, 1, 2, 3, 6, 4]⟩, some 0x43⟩) ∧
    (BitStreamTransmitter.mk [] 0).upload_bitstream_to [1, 2, 3] 5
        ⟨⟨[0x43, 0x15, 0x15, 0x06], []⟩, none⟩
      = some (BitStreamTransmitter.mk [1, 2, 3] 5,
          ⟨⟨[], [0x31, 1, 0, 0, 0, 8, 0, 0, 0, 5, 0, 0, 0, 1, 6,
                 1, 0, 1, 0, 3, 1, 2, 3, 6, 4]⟩, some 0x43⟩) ∧
    (BitStreamTransmitter.mk [1, 2, 3] 5 = BitStreamTransmitter.mk [1, 2, 3] 5 ∧
     ([] : List Nat) = [] ∧ (some 0x43 : Option Nat) = some 0x43 ∧
     ∃ w, ([9, 0x31, 1, 0, 0, 0, 8, 0, 0, 0, 5, 0, 0, 0, 1, 6,
            1, 0, 1, 0, 3, 1, 2, 3, 6, 4] : List Nat) = [9] ++ w ∧
          ([0x31, 1, 0, 0, 0, 8, 0, 0, 0, 5, 0, 0, 0, 1, 6,
            1, 0, 1, 0, 3, 1, 2, 3, 6, 4] : List Nat) = [] ++ w) :=
  ⟨by rfl, by rfl,
    upload_deterministic (BitStreamTransmitter.mk [5] 1) (BitStreamTransmitter.mk [] 0)
      [1, 2, 3] 5 [0x43, 0x15, 0x15, 0x06] [9] [] (some 0) none
      (BitStreamTransmitter.mk [1, 2, 3] 5) (BitStreamTransmitter.mk [1, 2, 3] 5)
      ⟨⟨[], [9, 0x31, 1, 0, 0, 0, 8, 0, 0, 0, 5, 0, 0, 0, 1, 6,
             1, 0, 1, 0, 3, 1, 2, 3, 6, 4]⟩, some 0x43⟩
      ⟨⟨[], [0x31, 1, 0, 0, 0, 8, 0, 0, 0, 5, 0, 0, 0, 1, 6,
             1, 0, 1, 0, 3, 1, 2, 3, 6, 4]⟩, some 0x43⟩ (by rfl) (by rfl)⟩

end Flasher
